import Mathlib

/-!
A shallow embedding of `retinanet/train.py` (`train`, the training-loop
driver).  The loop body is embedded as a state-transformer that also emits a
trace of observable events (optimizer calls, loss recording, report sinks,
validation, checkpoint saves, exception handling).  Python exceptions are an
explicit outcome flag; machine floats carried by the loop (losses, profiler
times, metrics) are embedded as rationals, with possible non-finiteness of a
loss recorded as a boolean in the per-batch environment.
-/

namespace RetinaNet

/-- amp opt_level selection, train.py line 35:
`opt_level='O0' if mixed_precision else 'O0'`. -/
def ampOptLevel (mixed_precision : Bool) : String :=
  if mixed_precision then "O0" else "O0"

/-- Console precision label, train.py line 67:
`'mixed' if mixed_precision else 'full'`. -/
def precisionLabel (mixed_precision : Bool) : String :=
  if mixed_precision then "mixed" else "full"

/-- Per-batch environment: everything the loop body consumes from the outside
world while processing one batch.  `cls w` / `box w` are the batch-mean
classification and box losses computed on worker `w` by the forward pass;
`dt` is the wall-clock time the profiler accumulates for the batch
(Modelled from the spec: `Profiler` of `retinanet/utils.py` is not in the
sources; it accumulates per-key elapsed times, `bump` adds the elapsed time to
`totals['train']` and `reset` clears the totals); `finite` is whether the
reduced `cls_loss + box_loss` is a finite float; `raises` injects an
exception raised by the body (data iterator, forward pass, ...); `f1`
(Modelled from the spec: `infer` of `retinanet/infer.py` is not in the
sources; validation returns either a numeric f1 metric or a string) is
`some q` when validation returns the numeric metric `q`, `none` when it
returns a string. -/
structure BatchEnv where
  cls : ℕ → ℚ
  box : ℕ → ℚ
  dt : ℚ
  finite : Bool
  raises : Bool
  f1 : Option ℚ

/-- The arguments of `train` that steer the control flow, train.py
lines 17-19.  `val_annotations` and `metrics_url` keep only their truthiness,
`logdir` whether it is not None; `rank` is the index of the worker executing
this copy of the loop; `epochLen` is the number of batches the data iterator
yields per epoch. -/
structure Config where
  iterations : ℕ
  val_iterations : ℕ
  val_annotations : Bool
  is_master : Bool
  world : ℕ
  rank : ℕ
  verbose : Bool
  metrics_url : Bool
  logdir : Bool
  epochLen : ℕ
  lr : ℚ

/-- Observable events of one run of `train`. -/
inductive Event where
  | zeroGrad (iter : ℕ)
  | forward (iter : ℕ) (cls box : ℚ)
  | backward (iter : ℕ) (loss : ℚ)
  | optStep (iter : ℕ)
  | record (iter : ℕ) (cls box : ℚ)
  | console (iter : ℕ) (prof : ℚ)
  | tbWrite (iter : ℕ) (prof : ℚ)
  | metricsPost (iter : ℕ) (prof : ℚ)
  | stateUpdate (iter : ℕ)
  | validate (iter : ℕ) (f1 : Option ℚ)
  | schedStep (iter : ℕ) (metric : ℚ)
  | save (iter : ℕ)
  | exnPrint
  | writerClose
  deriving DecidableEq

/-- Modelled from the spec: state of torch's `ReduceLROnPlateau`
(not repository code), as constructed on train.py line 55 with
`mode='min', factor=0.5, patience=2` and torch defaults
`threshold=1e-4 (rel), cooldown=0, min_lr=0, eps=1e-8`.
`best = none` is the initial `inf`. -/
structure SchedState where
  lr : ℚ
  best : Option ℚ
  numBad : ℕ
  deriving DecidableEq

/-- `patience=2` from train.py line 55. -/
def schedPatience : ℕ := 2

/-- `factor=0.5` from train.py line 55. -/
def schedFactor : ℚ := 1 / 2

/-- torch default `threshold=1e-4`. -/
def schedThreshold : ℚ := 1 / 10000

/-- torch default `eps=1e-8`. -/
def schedEps : ℚ := 1 / 100000000

/-- Modelled from the spec: `ReduceLROnPlateau.is_better` for
`mode='min', threshold_mode='rel'`: `a < best * (1 - threshold)`,
with `best = none` standing for the initial infinity. -/
def isBetter (current : ℚ) (best : Option ℚ) : Bool :=
  match best with
  | none => true
  | some b => decide (current < b * (1 - schedThreshold))

/-- Modelled from the spec: `ReduceLROnPlateau.step(metrics)` with
`cooldown=0, min_lr=0`: update `best`/`num_bad_epochs`, and when
`num_bad_epochs > patience` reduce `lr` to `max(lr*factor, min_lr)`
provided the reduction exceeds `eps`, resetting `num_bad_epochs`. -/
def reduceLROnPlateauStep (s : SchedState) (m : ℚ) : SchedState :=
  let better := isBetter m s.best
  let best := if better then some m else s.best
  let numBad := if better then 0 else s.numBad + 1
  if schedPatience < numBad then
    let newLr := max (s.lr * schedFactor) 0
    { lr := if schedEps < s.lr - newLr then newLr else s.lr
      best := best, numBad := 0 }
  else
    { lr := s.lr, best := best, numBad := numBad }

/-- The mutable state of the loop: `iteration` (train.py line 78),
the master's `cls_losses`/`box_losses` lists (line 81), the profiler's
`totals['train']` since the last reset, the scheduler state, and
`stateIter`, the `'iteration'` entry of the `state` dict
(`none` when the key is absent). -/
structure LoopState where
  iteration : ℕ
  clsLosses : List ℚ
  boxLosses : List ℚ
  profTrain : ℚ
  sched : SchedState
  stateIter : Option ℕ
  deriving DecidableEq

inductive StepOut where
  | ok
  | exn
  deriving DecidableEq

structure StepRes where
  st : LoopState
  evs : List Event
  out : StepOut

/-- Loss reduction, train.py lines 100-105: each worker holds its batch-mean
loss; with `world > 1`, `torch.distributed.all_reduce` (default op: sum)
replaces it by the sum over all workers, which is then divided by `world`. -/
def allReduceMean (world rank : ℕ) (f : ℕ → ℚ) : ℚ :=
  if 1 < world then (∑ w ∈ Finset.range world, f w) / (world : ℚ) else f rank

/-- The validation trigger, train.py line 159:
`val_annotations and (iteration == iterations or iteration % val_iterations == 0)`. -/
def valCond (cfg : Config) (i : ℕ) : Bool :=
  cfg.val_annotations && (decide (i = cfg.iterations) || decide (i % cfg.val_iterations = 0))

/-- Python evaluation of line 159 raises ZeroDivisionError exactly when
`val_annotations` is truthy, the short-circuiting `iteration == iterations`
is false, and `val_iterations == 0`. -/
def valZeroDiv (cfg : Config) (i : ℕ) : Bool :=
  cfg.val_annotations && !(decide (i = cfg.iterations)) && decide (cfg.val_iterations = 0)

/-- Report block, train.py lines 119-157: when on the master and the
accumulated profiler time exceeds 2 or the final iteration is reached,
print to the console when `verbose`, write the TensorBoard scalars when
`logdir` is not None, post to `metrics_url` when set, update the `state`
dict (`'iteration'`, `'optimizer'`, `'scheduler'`), reset the profiler and
clear the loss lists. -/
def reportBlock (cfg : Config) (i' : ℕ) (prof : ℚ) (s : LoopState) :
    LoopState × List Event :=
  if cfg.is_master && (decide (2 < prof) || decide (i' = cfg.iterations)) then
    ({ s with stateIter := some i', profTrain := 0, clsLosses := [], boxLosses := [] },
      (if cfg.verbose then [Event.console i' prof] else []) ++
      (if cfg.logdir then [Event.tbWrite i' prof] else []) ++
      (if cfg.metrics_url then [Event.metricsPost i' prof] else []) ++
      [Event.stateUpdate i'])
  else (s, [])

/-- Master save, train.py lines 168-171: on the master,
`print('Saving model: ' + str(state['iteration']))` raises KeyError when the
`state` dict has no `'iteration'` entry; otherwise `nn_model.save(state)`
runs. -/
def masterSave (cfg : Config) (i' : ℕ) (s : LoopState) : List Event × StepOut :=
  if cfg.is_master then
    match s.stateIter with
    | none => ([], StepOut.exn)
    | some _ => ([Event.save i'], StepOut.ok)
  else ([], StepOut.ok)

/-- Validation block, train.py lines 159-171: run `infer` (its result is the
batch environment's `f1`); when the result is not a string, step the
scheduler with it; then the master prints and saves the checkpoint. -/
def validationBlock (cfg : Config) (e : BatchEnv) (i' : ℕ) (s : LoopState) :
    LoopState × List Event × StepOut :=
  let schedEvs : List Event :=
    match e.f1 with
    | some q => [Event.schedStep i' q]
    | none => []
  let s' : LoopState :=
    match e.f1 with
    | some q => { s with sched := reduceLROnPlateauStep s.sched q }
    | none => s
  let ms := masterSave cfg i' s'
  (s', Event.validate i' e.f1 :: (schedEvs ++ ms.1), ms.2)

/-- One pass of the loop body, train.py lines 82-174, for the batch taken at
iteration `s.iteration`: zero the gradients, forward pass, backward pass on
the amp-scaled sum of the losses (`loss_scale=128.0`, line 37), optimizer
step, loss reduction and recording, divergence check (line 110), iteration
increment and profiler bump, report block, validation block.  `out = exn`
when an exception escapes the body. -/
def stepBatch (cfg : Config) (e : BatchEnv) (s : LoopState) : StepRes :=
  if e.raises then ⟨s, [], StepOut.exn⟩ else
  let i := s.iteration
  let lCls := e.cls cfg.rank
  let lBox := e.box cfg.rank
  let ops : List Event :=
    [Event.zeroGrad i, Event.forward i lCls lBox,
     Event.backward i (128 * (lCls + lBox)), Event.optStep i]
  let rCls := allReduceMean cfg.world cfg.rank e.cls
  let rBox := allReduceMean cfg.world cfg.rank e.box
  let s1 := if cfg.is_master then
    { s with clsLosses := s.clsLosses ++ [rCls], boxLosses := s.boxLosses ++ [rBox] }
    else s
  let recEvs : List Event := if cfg.is_master then [Event.record i rCls rBox] else []
  if cfg.is_master && !e.finite then ⟨s1, ops ++ recEvs, StepOut.exn⟩ else
  let i' := i + 1
  let prof := s1.profTrain + e.dt
  let s2 : LoopState := { s1 with iteration := i', profTrain := prof }
  let rep := reportBlock cfg i' prof s2
  if valZeroDiv cfg i' then ⟨rep.1, ops ++ recEvs ++ rep.2, StepOut.exn⟩ else
  if valCond cfg i' then
    let vb := validationBlock cfg e i' rep.1
    ⟨vb.1, ops ++ recEvs ++ rep.2 ++ vb.2.1, vb.2.2⟩
  else ⟨rep.1, ops ++ recEvs ++ rep.2, StepOut.ok⟩

inductive EpochOut where
  | exn
  | brk
  | done
  deriving DecidableEq

structure EpochRes where
  st : LoopState
  evs : List Event
  out : EpochOut

/-- The inner `for` loop over one epoch of the data iterator
(train.py lines 82-174): process up to `n` batches, stopping early when an
exception escapes the body or `iteration == iterations` hits the `break` on
line 173-174. -/
def runEpoch (cfg : Config) (env : ℕ → BatchEnv) : LoopState → ℕ → EpochRes
  | s, 0 => ⟨s, [], EpochOut.done⟩
  | s, n + 1 =>
    let r := stepBatch cfg (env s.iteration) s
    match r.out with
    | StepOut.exn => ⟨r.st, r.evs, EpochOut.exn⟩
    | StepOut.ok =>
      if r.st.iteration = cfg.iterations then ⟨r.st, r.evs, EpochOut.brk⟩
      else
        let r2 := runEpoch cfg env r.st n
        ⟨r2.st, r.evs ++ r2.evs, r2.out⟩

inductive RunOut where
  | normal
  | caught
  | stuck
  deriving DecidableEq

structure WhileRes where
  st : LoopState
  evs : List Event
  out : RunOut

/-- The outer `while iteration < iterations` loop (train.py lines 80-174),
clearing the loss lists at each entry (line 81).  `fuel` bounds the number of
loop entries; `stuck` marks fuel exhaustion, which on a data iterator that
yields at least one batch per epoch never happens for the fuel `train`
supplies (the loop would genuinely not terminate when the iterator yields
nothing).  An exception escaping an epoch yields `caught`: it reaches the
`except` handler of line 175. -/
def runWhile (cfg : Config) (env : ℕ → BatchEnv) : ℕ → LoopState → WhileRes
  | 0, s =>
    if s.iteration < cfg.iterations then ⟨s, [], RunOut.stuck⟩
    else ⟨s, [], RunOut.normal⟩
  | fuel + 1, s =>
    if s.iteration < cfg.iterations then
      let r := runEpoch cfg env { s with clsLosses := [], boxLosses := [] } cfg.epochLen
      match r.out with
      | EpochOut.exn => ⟨r.st, r.evs, RunOut.caught⟩
      | EpochOut.brk => ⟨r.st, r.evs, RunOut.normal⟩
      | EpochOut.done =>
        let r2 := runWhile cfg env fuel r.st
        ⟨r2.st, r.evs ++ r2.evs, r2.out⟩
    else ⟨s, [], RunOut.normal⟩

/-- The loop state on entry of the `try` block: `iteration` from
`state.get('iteration', 0)` (line 78), empty loss lists, a fresh profiler
(line 77) and a fresh scheduler at the configured learning rate (line 55).
`state0` is the `'iteration'` entry of the incoming `state` dict
(`none` when absent). -/
def initState (cfg : Config) (state0 : Option ℕ) : LoopState :=
  ⟨state0.getD 0, [], [], 0, ⟨cfg.lr, none, 0⟩, state0⟩

/-- `train`, train.py lines 17-179: run the loop under the `try` of line 79;
an exception escaping the loop is caught and printed (lines 175-176), and
when `logdir` is not None the TensorBoard writer is closed (lines 178-179)
before returning. -/
def train (cfg : Config) (env : ℕ → BatchEnv) (state0 : Option ℕ) : WhileRes :=
  let r := runWhile cfg env (cfg.iterations + 1) (initState cfg state0)
  match r.out with
  | RunOut.stuck => r
  | RunOut.caught =>
    ⟨r.st, r.evs ++ [Event.exnPrint] ++ (if cfg.logdir then [Event.writerClose] else []),
      RunOut.caught⟩
  | RunOut.normal =>
    ⟨r.st, r.evs ++ (if cfg.logdir then [Event.writerClose] else []), RunOut.normal⟩

/-- Iteration values of the processed batches (one `optStep` per batch that
reached the optimizer). -/
def batchIters (evs : List Event) : List ℕ :=
  evs.filterMap fun e =>
    match e with
    | Event.optStep i => some i
    | _ => none

/-- Iteration values at which validation ran. -/
def valIters (evs : List Event) : List ℕ :=
  evs.filterMap fun e =>
    match e with
    | Event.validate i _ => some i
    | _ => none

/-- Iteration values at which the master saved the checkpoint. -/
def saveIters (evs : List Event) : List ℕ :=
  evs.filterMap fun e =>
    match e with
    | Event.save i => some i
    | _ => none

/-- The scheduler steps taken, with their metrics. -/
def schedSteps (evs : List Event) : List (ℕ × ℚ) :=
  evs.filterMap fun e =>
    match e with
    | Event.schedStep i q => some (i, q)
    | _ => none

/-- The validations that produced a numeric metric, with that metric. -/
def valNumerics (evs : List Event) : List (ℕ × ℚ) :=
  evs.filterMap fun e =>
    match e with
    | Event.validate i f => f.map fun q => (i, q)
    | _ => none


/-- Shape of the events the validation block can emit. -/
def fromValidation (i' : ℕ) (master : Bool) : Event → Prop := fun ev =>
  match ev with
  | Event.validate _ _ => True
  | Event.schedStep _ _ => True
  | Event.save j => j = i' ∧ master = true
  | _ => False

/-- Invariant satisfied by every event a run can emit: loss recording happens
only on the master and carries the all-reduced per-worker mean losses of that
iteration's batch; each report sink fires only on the master, only with its
own switch on, and only when the profiler gate was open; saves happen only on
the master and only when `val_annotations` is truthy. -/
def TraceInv (cfg : Config) (env : ℕ → BatchEnv) : Event → Prop := fun ev =>
  match ev with
  | Event.record j c b =>
      cfg.is_master = true ∧
      c = allReduceMean cfg.world cfg.rank (env j).cls ∧
      b = allReduceMean cfg.world cfg.rank (env j).box
  | Event.console j p =>
      cfg.is_master = true ∧ cfg.verbose = true ∧ (2 < p ∨ j = cfg.iterations)
  | Event.tbWrite j p =>
      cfg.is_master = true ∧ cfg.logdir = true ∧ (2 < p ∨ j = cfg.iterations)
  | Event.metricsPost j p =>
      cfg.is_master = true ∧ cfg.metrics_url = true ∧ (2 < p ∨ j = cfg.iterations)
  | Event.save _ => cfg.is_master = true ∧ cfg.val_annotations = true
  | _ => True

/-- The four operations of train.py lines 88-97, in source order: zero the
gradients, forward pass, backward pass on the amp-scaled sum of the losses,
optimizer step. -/
def batchOps (i : ℕ) (c b : ℚ) : List Event :=
  [Event.zeroGrad i, Event.forward i c b, Event.backward i (128 * (c + b)),
   Event.optStep i]

/-- Concrete runs used as witnesses and counterexamples below: `cexCfg` is a
2-iteration master run validating at every iteration; `cfgA` a plain
1-iteration master run; `cfgW` a 2-worker run; `cfgS` a run with console,
metrics and TensorBoard sinks on; `envW` gives worker `w` the batch-mean
losses `w + 1`; `envS` takes 3 seconds per batch; `envR` raises on every
batch; `envF` produces non-finite losses. -/
def cexCfg : Config := ⟨2, 1, true, true, 1, 0, false, false, false, 5, 1⟩
def cexEnv : ℕ → BatchEnv := fun _ => ⟨fun _ => 0, fun _ => 0, 0, true, false, some 1⟩
def cfgA : Config := ⟨1, 5, false, true, 1, 0, false, false, false, 3, 1⟩
def envA : ℕ → BatchEnv := fun _ => ⟨fun _ => 0, fun _ => 0, 0, true, false, none⟩
def cfgW : Config := ⟨1, 5, false, true, 2, 0, false, false, false, 3, 1⟩
def envW : ℕ → BatchEnv :=
  fun _ => ⟨fun w => (w : ℚ) + 1, fun w => (w : ℚ) + 1, 0, true, false, none⟩
def cfgS : Config := ⟨1, 5, false, true, 1, 0, true, true, true, 3, 1⟩
def envS : ℕ → BatchEnv := fun _ => ⟨fun _ => 0, fun _ => 0, 3, true, false, none⟩
def envR : ℕ → BatchEnv := fun _ => ⟨fun _ => 0, fun _ => 0, 0, true, true, none⟩
def envF : ℕ → BatchEnv := fun _ => ⟨fun _ => 0, fun _ => 0, 0, false, false, none⟩

lemma batchIters_append (a b : List Event) :
    batchIters (a ++ b) = batchIters a ++ batchIters b :=
  List.filterMap_append ..

lemma valIters_append (a b : List Event) :
    valIters (a ++ b) = valIters a ++ valIters b :=
  List.filterMap_append ..

lemma saveIters_append (a b : List Event) :
    saveIters (a ++ b) = saveIters a ++ saveIters b :=
  List.filterMap_append ..

lemma schedSteps_append (a b : List Event) :
    schedSteps (a ++ b) = schedSteps a ++ schedSteps b :=
  List.filterMap_append ..

lemma valNumerics_append (a b : List Event) :
    valNumerics (a ++ b) = valNumerics a ++ valNumerics b :=
  List.filterMap_append ..

lemma reportBlock_st (cfg : Config) (i' : ℕ) (prof : ℚ) (s : LoopState) :
    (reportBlock cfg i' prof s).1.iteration = s.iteration ∧
    (reportBlock cfg i' prof s).1.sched = s.sched := by
  unfold reportBlock
  split <;> simp

lemma reportBlock_extract (cfg : Config) (i' : ℕ) (prof : ℚ) (s : LoopState) :
    batchIters (reportBlock cfg i' prof s).2 = [] ∧
    valIters (reportBlock cfg i' prof s).2 = [] ∧
    saveIters (reportBlock cfg i' prof s).2 = [] ∧
    schedSteps (reportBlock cfg i' prof s).2 = [] ∧
    valNumerics (reportBlock cfg i' prof s).2 = [] := by
  unfold reportBlock
  split
  · rcases cfg.verbose <;> rcases cfg.logdir <;> rcases cfg.metrics_url <;>
      simp [batchIters, valIters, saveIters, schedSteps, valNumerics]
  · simp [batchIters, valIters, saveIters, schedSteps, valNumerics]

lemma batchIters_nil : batchIters [] = [] := rfl
lemma valIters_nil : valIters [] = [] := rfl
lemma saveIters_nil : saveIters [] = [] := rfl
lemma schedSteps_nil : schedSteps [] = [] := rfl
lemma valNumerics_nil : valNumerics [] = [] := rfl

lemma batchIters_cons (ev : Event) (l : List Event) :
    batchIters (ev :: l) =
      (match ev with | Event.optStep i => [i] | _ => []) ++ batchIters l := by
  unfold batchIters; rw [List.filterMap_cons]; rcases ev <;> simp

lemma valIters_cons (ev : Event) (l : List Event) :
    valIters (ev :: l) =
      (match ev with | Event.validate i _ => [i] | _ => []) ++ valIters l := by
  unfold valIters; rw [List.filterMap_cons]; rcases ev <;> simp

lemma saveIters_cons (ev : Event) (l : List Event) :
    saveIters (ev :: l) =
      (match ev with | Event.save i => [i] | _ => []) ++ saveIters l := by
  unfold saveIters; rw [List.filterMap_cons]; rcases ev <;> simp

lemma schedSteps_cons (ev : Event) (l : List Event) :
    schedSteps (ev :: l) =
      (match ev with | Event.schedStep i q => [(i, q)] | _ => []) ++ schedSteps l := by
  unfold schedSteps; rw [List.filterMap_cons]; rcases ev <;> simp

lemma valNumerics_cons (ev : Event) (l : List Event) :
    valNumerics (ev :: l) =
      (match ev with
        | Event.validate i f => (f.map fun q => (i, q)).toList
        | _ => []) ++ valNumerics l := by
  unfold valNumerics; rw [List.filterMap_cons]
  rcases ev with _ | _ | _ | _ | _ | _ | _ | _ | _ | ⟨i, f⟩ | _ | _ | _ | _ <;>
    first
      | rfl
      | (rcases f <;> rfl)

lemma batchIters_ite (c : Prop) [Decidable c] (a b : List Event) :
    batchIters (if c then a else b) = if c then batchIters a else batchIters b :=
  apply_ite ..

lemma valIters_ite (c : Prop) [Decidable c] (a b : List Event) :
    valIters (if c then a else b) = if c then valIters a else valIters b :=
  apply_ite ..

lemma saveIters_ite (c : Prop) [Decidable c] (a b : List Event) :
    saveIters (if c then a else b) = if c then saveIters a else saveIters b :=
  apply_ite ..

lemma schedSteps_ite (c : Prop) [Decidable c] (a b : List Event) :
    schedSteps (if c then a else b) = if c then schedSteps a else schedSteps b :=
  apply_ite ..

lemma valNumerics_ite (c : Prop) [Decidable c] (a b : List Event) :
    valNumerics (if c then a else b) = if c then valNumerics a else valNumerics b :=
  apply_ite ..

lemma reportBlock_iteration (cfg : Config) (i' : ℕ) (prof : ℚ) (s : LoopState) :
    (reportBlock cfg i' prof s).1.iteration = s.iteration := by
  unfold reportBlock; split <;> simp

lemma reportBlock_sched (cfg : Config) (i' : ℕ) (prof : ℚ) (s : LoopState) :
    (reportBlock cfg i' prof s).1.sched = s.sched := by
  unfold reportBlock; split <;> simp

lemma reportBlock_stateIter (cfg : Config) (i' : ℕ) (prof : ℚ) (s : LoopState) :
    (reportBlock cfg i' prof s).1.stateIter =
      if cfg.is_master && (decide (2 < prof) || decide (i' = cfg.iterations)) then some i'
      else s.stateIter := by
  unfold reportBlock; split <;> simp_all

lemma reportBlock_not_master (cfg : Config) (i' : ℕ) (prof : ℚ) (s : LoopState)
    (hm : cfg.is_master = false) : reportBlock cfg i' prof s = (s, []) := by
  unfold reportBlock; rw [if_neg] ; simp [hm]

lemma reportBlock_stateUpdate_mem (cfg : Config) (i' : ℕ) (prof : ℚ) (s : LoopState)
    (hm : cfg.is_master = true) (hi : i' = cfg.iterations) :
    Event.stateUpdate i' ∈ (reportBlock cfg i' prof s).2 := by
  unfold reportBlock
  rw [if_pos] <;> simp [hm, hi]

lemma batchIters_reportBlock (cfg : Config) (i' : ℕ) (prof : ℚ) (s : LoopState) :
    batchIters (reportBlock cfg i' prof s).2 = [] := by
  unfold reportBlock; split
  · rcases cfg.verbose <;> rcases cfg.logdir <;> rcases cfg.metrics_url <;> simp [batchIters]
  · simp [batchIters]

lemma valIters_reportBlock (cfg : Config) (i' : ℕ) (prof : ℚ) (s : LoopState) :
    valIters (reportBlock cfg i' prof s).2 = [] := by
  unfold reportBlock; split
  · rcases cfg.verbose <;> rcases cfg.logdir <;> rcases cfg.metrics_url <;> simp [valIters]
  · simp [valIters]

lemma saveIters_reportBlock (cfg : Config) (i' : ℕ) (prof : ℚ) (s : LoopState) :
    saveIters (reportBlock cfg i' prof s).2 = [] := by
  unfold reportBlock; split
  · rcases cfg.verbose <;> rcases cfg.logdir <;> rcases cfg.metrics_url <;> simp [saveIters]
  · simp [saveIters]

lemma schedSteps_reportBlock (cfg : Config) (i' : ℕ) (prof : ℚ) (s : LoopState) :
    schedSteps (reportBlock cfg i' prof s).2 = [] := by
  unfold reportBlock; split
  · rcases cfg.verbose <;> rcases cfg.logdir <;> rcases cfg.metrics_url <;> simp [schedSteps]
  · simp [schedSteps]

lemma valNumerics_reportBlock (cfg : Config) (i' : ℕ) (prof : ℚ) (s : LoopState) :
    valNumerics (reportBlock cfg i' prof s).2 = [] := by
  unfold reportBlock; split
  · rcases cfg.verbose <;> rcases cfg.logdir <;> rcases cfg.metrics_url <;> simp [valNumerics]
  · simp [valNumerics]

lemma reportBlock_mem (cfg : Config) (i' : ℕ) (prof : ℚ) (s : LoopState) (ev : Event)
    (h : ev ∈ (reportBlock cfg i' prof s).2) :
    cfg.is_master = true ∧ (2 < prof ∨ i' = cfg.iterations) ∧
    (ev = Event.stateUpdate i' ∨
      (ev = Event.console i' prof ∧ cfg.verbose = true) ∨
      (ev = Event.tbWrite i' prof ∧ cfg.logdir = true) ∨
      (ev = Event.metricsPost i' prof ∧ cfg.metrics_url = true)) := by
  revert h; unfold reportBlock; split
  case isTrue hg =>
    simp only [Bool.and_eq_true, Bool.or_eq_true, decide_eq_true_eq] at hg
    rcases cfg.verbose <;> rcases cfg.logdir <;> rcases cfg.metrics_url <;>
      (intro h; simp at h) <;> tauto
  case isFalse => simp

lemma validationBlock_iteration (cfg : Config) (e : BatchEnv) (i' : ℕ) (s : LoopState) :
    (validationBlock cfg e i' s).1.iteration = s.iteration := by
  unfold validationBlock
  rcases e.f1 <;> simp

lemma validationBlock_out (cfg : Config) (e : BatchEnv) (i' : ℕ) (s : LoopState) :
    (validationBlock cfg e i' s).2.2 =
      if cfg.is_master then
        (match s.stateIter with
          | none => StepOut.exn
          | some _ => StepOut.ok)
      else StepOut.ok := by
  unfold validationBlock masterSave
  rcases e.f1 <;> rcases hm : cfg.is_master <;> rcases hsi : s.stateIter <;> simp [hm, hsi]

lemma batchIters_validationBlock (cfg : Config) (e : BatchEnv) (i' : ℕ) (s : LoopState) :
    batchIters (validationBlock cfg e i' s).2.1 = [] := by
  unfold validationBlock masterSave
  rcases e.f1 <;> rcases hm : cfg.is_master <;> rcases hsi : s.stateIter <;>
    simp [hm, hsi, batchIters]

lemma valIters_validationBlock (cfg : Config) (e : BatchEnv) (i' : ℕ) (s : LoopState) :
    valIters (validationBlock cfg e i' s).2.1 = [i'] := by
  unfold validationBlock masterSave
  rcases e.f1 <;> rcases hm : cfg.is_master <;> rcases hsi : s.stateIter <;>
    simp [hm, hsi, valIters]

lemma saveIters_validationBlock (cfg : Config) (e : BatchEnv) (i' : ℕ) (s : LoopState) :
    saveIters (validationBlock cfg e i' s).2.1 =
      if cfg.is_master && s.stateIter.isSome then [i'] else [] := by
  unfold validationBlock masterSave
  rcases e.f1 <;> rcases hm : cfg.is_master <;> rcases hsi : s.stateIter <;>
    simp [hm, hsi, saveIters]

lemma schedSteps_validationBlock (cfg : Config) (e : BatchEnv) (i' : ℕ) (s : LoopState) :
    schedSteps (validationBlock cfg e i' s).2.1 =
      (e.f1.map fun q => (i', q)).toList := by
  unfold validationBlock masterSave
  rcases e.f1 <;> rcases hm : cfg.is_master <;> rcases hsi : s.stateIter <;>
    simp [hm, hsi, schedSteps]

lemma valNumerics_validationBlock (cfg : Config) (e : BatchEnv) (i' : ℕ) (s : LoopState) :
    valNumerics (validationBlock cfg e i' s).2.1 =
      (e.f1.map fun q => (i', q)).toList := by
  unfold validationBlock masterSave
  rcases e.f1 <;> rcases hm : cfg.is_master <;> rcases hsi : s.stateIter <;>
    simp [hm, hsi, valNumerics]

lemma validationBlock_mem (cfg : Config) (e : BatchEnv) (i' : ℕ) (s : LoopState) (ev : Event)
    (h : ev ∈ (validationBlock cfg e i' s).2.1) :
    fromValidation i' cfg.is_master ev := by
  revert h; unfold validationBlock masterSave
  rcases e.f1 <;> rcases hm : cfg.is_master <;> rcases hsi : s.stateIter <;>
    (intro h; simp [hm, hsi] at h) <;>
    (rcases h with rfl | rfl | rfl <;> simp [fromValidation, hm])

set_option maxHeartbeats 2000000 in
lemma stepBatch_ok_spec (cfg : Config) (e : BatchEnv) (s : LoopState)
    (h : (stepBatch cfg e s).out = StepOut.ok) :
    (stepBatch cfg e s).st.iteration = s.iteration + 1 ∧
    batchIters (stepBatch cfg e s).evs = [s.iteration] ∧
    valIters (stepBatch cfg e s).evs =
      (if valCond cfg (s.iteration + 1) then [s.iteration + 1] else []) ∧
    saveIters (stepBatch cfg e s).evs =
      (if cfg.is_master && valCond cfg (s.iteration + 1) then [s.iteration + 1] else []) ∧
    (cfg.is_master = true → s.iteration + 1 = cfg.iterations →
      Event.stateUpdate (s.iteration + 1) ∈ (stepBatch cfg e s).evs) := by
  revert h
  cases he : e.raises
  case true => simp [stepBatch, he]
  case false =>
  cases hm : cfg.is_master
  case false =>
    cases hzd : valZeroDiv cfg (s.iteration + 1)
    case true => simp [stepBatch, he, hm, hzd]
    case false =>
      cases hvc : valCond cfg (s.iteration + 1)
      all_goals
        intro _
        refine ⟨?_, ?_, ?_, ?_, ?_⟩ <;>
          simp [stepBatch, he, hm, hzd, hvc, batchIters_append, valIters_append,
            saveIters_append, batchIters_reportBlock, valIters_reportBlock,
            saveIters_reportBlock, reportBlock_iteration, validationBlock_iteration,
            batchIters_validationBlock, valIters_validationBlock, saveIters_validationBlock,
            batchIters_cons, valIters_cons, saveIters_cons,
            batchIters_nil, valIters_nil, saveIters_nil]
  case true =>
    cases hfin : e.finite
    case false => simp [stepBatch, he, hm, hfin]
    case true =>
      cases hzd : valZeroDiv cfg (s.iteration + 1)
      case true => simp [stepBatch, he, hm, hfin, hzd]
      case false =>
        cases hvc : valCond cfg (s.iteration + 1)
        all_goals by_cases hg2 : 2 < s.profTrain + e.dt
        all_goals by_cases hg3 : s.iteration + 1 = cfg.iterations
        all_goals cases hsi : s.stateIter
        all_goals rcases hf1 : e.f1 with _ | q
        all_goals try rw [hg3] at hzd hvc
        all_goals
          intro h
          refine ⟨?_, ?_, ?_, ?_, ?_⟩ <;>
            simp [stepBatch, he, hm, hfin, hzd, hvc, hg2, hg3, hsi, hf1,
              reportBlock, validationBlock, masterSave,
              batchIters_append, valIters_append, saveIters_append,
              batchIters_cons, valIters_cons, saveIters_cons,
              batchIters_ite, valIters_ite, saveIters_ite,
              batchIters_nil, valIters_nil, saveIters_nil] at h ⊢

lemma traceInv_of_reportBlock (cfg : Config) (env : ℕ → BatchEnv) {i' : ℕ} {prof : ℚ}
    {s : LoopState} {ev : Event} (h : ev ∈ (reportBlock cfg i' prof s).2) :
    TraceInv cfg env ev := by
  obtain ⟨hm, hgate, hshape⟩ := reportBlock_mem _ _ _ _ _ h
  rcases hshape with rfl | ⟨rfl, hv⟩ | ⟨rfl, hv⟩ | ⟨rfl, hv⟩
  · simp [TraceInv]
  all_goals simp [TraceInv, hm, hv, hgate]

lemma traceInv_of_validationBlock (cfg : Config) (env : ℕ → BatchEnv) {e : BatchEnv}
    {i' : ℕ} {s : LoopState} {ev : Event} (hva : cfg.val_annotations = true)
    (h : ev ∈ (validationBlock cfg e i' s).2.1) :
    TraceInv cfg env ev := by
  have hs := validationBlock_mem _ _ _ _ _ h
  rcases ev <;> simp [fromValidation] at hs <;> simp [TraceInv, hva, hs]

lemma valCond_val_annotations {cfg : Config} {i : ℕ} (h : valCond cfg i = true) :
    cfg.val_annotations = true := by
  unfold valCond at h
  exact (Bool.and_eq_true .. |>.mp h).1

set_option maxHeartbeats 1000000 in
lemma stepBatch_inv (cfg : Config) (env : ℕ → BatchEnv) (s : LoopState) :
    ∀ ev ∈ (stepBatch cfg (env s.iteration) s).evs, TraceInv cfg env ev := by
  intro ev
  cases he : (env s.iteration).raises
  case true => simp [stepBatch, he]
  case false =>
  cases hm : cfg.is_master
  case false =>
    cases hzd : valZeroDiv cfg (s.iteration + 1)
    case true =>
      intro hev
      simp [stepBatch, he, hm, hzd, reportBlock_not_master, List.mem_append,
        List.mem_cons] at hev
      rcases hev with rfl | rfl | rfl | rfl <;> simp [TraceInv]
    case false =>
      cases hvc : valCond cfg (s.iteration + 1)
      case false =>
        intro hev
        simp [stepBatch, he, hm, hzd, hvc, reportBlock_not_master, List.mem_append,
          List.mem_cons] at hev
        rcases hev with rfl | rfl | rfl | rfl <;> simp [TraceInv]
      case true =>
        intro hev
        simp [stepBatch, he, hm, hzd, hvc, reportBlock_not_master, List.mem_append,
          List.mem_cons] at hev
        rcases hev with rfl | rfl | rfl | rfl | hev
        · simp [TraceInv]
        · simp [TraceInv]
        · simp [TraceInv]
        · simp [TraceInv]
        · exact traceInv_of_validationBlock cfg env (valCond_val_annotations hvc) hev
  case true =>
    cases hfin : (env s.iteration).finite
    case false =>
      intro hev
      simp [stepBatch, he, hm, hfin, List.mem_append, List.mem_cons] at hev
      rcases hev with rfl | rfl | rfl | rfl | rfl <;> simp [TraceInv, hm]

    case true =>
      cases hzd : valZeroDiv cfg (s.iteration + 1)
      case true =>
        intro hev
        simp [stepBatch, he, hm, hfin, hzd, List.mem_append, List.mem_cons] at hev
        rcases hev with rfl | rfl | rfl | rfl | rfl | hev
        · simp [TraceInv]
        · simp [TraceInv, hm]
        · simp [TraceInv]
        · simp [TraceInv]
        · simp [TraceInv, hm]
        · exact traceInv_of_reportBlock cfg env hev
      case false =>
        cases hvc : valCond cfg (s.iteration + 1)
        case false =>
          intro hev
          simp [stepBatch, he, hm, hfin, hzd, hvc, List.mem_append, List.mem_cons] at hev
          rcases hev with rfl | rfl | rfl | rfl | rfl | hev
          · simp [TraceInv]
          · simp [TraceInv, hm]
          · simp [TraceInv]
          · simp [TraceInv]
          · simp [TraceInv, hm]
          · exact traceInv_of_reportBlock cfg env hev
        case true =>
          intro hev
          simp [stepBatch, he, hm, hfin, hzd, hvc, List.mem_append, List.mem_cons] at hev
          rcases hev with rfl | rfl | rfl | rfl | rfl | hev | hev
          · simp [TraceInv]
          · simp [TraceInv, hm]
          · simp [TraceInv]
          · simp [TraceInv]
          · simp [TraceInv, hm]
          · exact traceInv_of_reportBlock cfg env hev
          · exact traceInv_of_validationBlock cfg env (valCond_val_annotations hvc) hev

set_option maxHeartbeats 1000000 in
lemma stepBatch_pairs (cfg : Config) (e : BatchEnv) (s : LoopState) :
    schedSteps (stepBatch cfg e s).evs = valNumerics (stepBatch cfg e s).evs := by
  cases he : e.raises
  case true => simp [stepBatch, he, schedSteps_nil, valNumerics_nil]
  case false =>
  cases hmf : cfg.is_master && !e.finite
  all_goals cases hzd : valZeroDiv cfg (s.iteration + 1)
  all_goals cases hvc : valCond cfg (s.iteration + 1)
  all_goals
    simp [stepBatch, he, hmf, hzd, hvc, schedSteps_append, valNumerics_append,
      schedSteps_cons, valNumerics_cons, schedSteps_nil, valNumerics_nil,
      schedSteps_ite, valNumerics_ite, schedSteps_reportBlock, valNumerics_reportBlock,
      schedSteps_validationBlock, valNumerics_validationBlock]

lemma filter_single (p : ℕ → Bool) (a : ℕ) :
    List.filter p [a] = if p a then [a] else [] := by
  simp [List.filter_cons]

lemma runEpoch_inv (cfg : Config) (env : ℕ → BatchEnv) :
    ∀ (n : ℕ) (s : LoopState), ∀ ev ∈ (runEpoch cfg env s n).evs, TraceInv cfg env ev := by
  intro n
  induction n with
  | zero => intro s ev hev; simp [runEpoch] at hev
  | succ n ih =>
    intro s ev hev
    cases ho : (stepBatch cfg (env s.iteration) s).out
    · by_cases hbrk : (stepBatch cfg (env s.iteration) s).st.iteration = cfg.iterations
      · simp [runEpoch, ho, hbrk] at hev
        exact stepBatch_inv cfg env s ev hev
      · simp [runEpoch, ho, hbrk, List.mem_append] at hev
        rcases hev with hev | hev
        · exact stepBatch_inv cfg env s ev hev
        · exact ih _ ev hev
    · simp [runEpoch, ho] at hev
      exact stepBatch_inv cfg env s ev hev

lemma runEpoch_pairs (cfg : Config) (env : ℕ → BatchEnv) :
    ∀ (n : ℕ) (s : LoopState),
      schedSteps (runEpoch cfg env s n).evs = valNumerics (runEpoch cfg env s n).evs := by
  intro n
  induction n with
  | zero => intro s; simp [runEpoch, schedSteps_nil, valNumerics_nil]
  | succ n ih =>
    intro s
    cases ho : (stepBatch cfg (env s.iteration) s).out
    · by_cases hbrk : (stepBatch cfg (env s.iteration) s).st.iteration = cfg.iterations
      · simp [runEpoch, ho, hbrk, stepBatch_pairs]
      · simp [runEpoch, ho, hbrk, schedSteps_append, valNumerics_append,
          stepBatch_pairs, ih]
    · simp [runEpoch, ho, stepBatch_pairs]

lemma runEpoch_spec (cfg : Config) (env : ℕ → BatchEnv) :
    ∀ (n : ℕ) (s : LoopState),
    ((runEpoch cfg env s n).out = EpochOut.done →
      (runEpoch cfg env s n).st.iteration = s.iteration + n ∧
      (s.iteration < cfg.iterations → s.iteration + n < cfg.iterations) ∧
      batchIters (runEpoch cfg env s n).evs = List.range' s.iteration n ∧
      valIters (runEpoch cfg env s n).evs =
        (List.range' (s.iteration + 1) n).filter (fun i => valCond cfg i) ∧
      saveIters (runEpoch cfg env s n).evs =
        (if cfg.is_master then
          (List.range' (s.iteration + 1) n).filter (fun i => valCond cfg i) else [])) ∧
    ((runEpoch cfg env s n).out = EpochOut.brk →
      s.iteration < cfg.iterations ∧
      (runEpoch cfg env s n).st.iteration = cfg.iterations ∧
      batchIters (runEpoch cfg env s n).evs =
        List.range' s.iteration (cfg.iterations - s.iteration) ∧
      valIters (runEpoch cfg env s n).evs =
        (List.range' (s.iteration + 1) (cfg.iterations - s.iteration)).filter
          (fun i => valCond cfg i) ∧
      saveIters (runEpoch cfg env s n).evs =
        (if cfg.is_master then
          (List.range' (s.iteration + 1) (cfg.iterations - s.iteration)).filter
            (fun i => valCond cfg i) else []) ∧
      (cfg.is_master = true → Event.stateUpdate cfg.iterations ∈ (runEpoch cfg env s n).evs)) := by
  intro n
  induction n with
  | zero =>
    intro s
    constructor
    · intro _
      simp [runEpoch, batchIters_nil, valIters_nil, saveIters_nil]
    · intro h
      simp [runEpoch] at h
  | succ n ih =>
    intro s
    cases ho : (stepBatch cfg (env s.iteration) s).out
    case ok =>
      obtain ⟨hit, hbi, hvi, hsv, hsu⟩ := stepBatch_ok_spec cfg (env s.iteration) s ho
      by_cases hbrk : (stepBatch cfg (env s.iteration) s).st.iteration = cfg.iterations
      · -- break after this batch
        have hlt : s.iteration < cfg.iterations := by omega
        have hone : cfg.iterations - s.iteration = 1 := by omega
        have hieq : s.iteration + 1 = cfg.iterations := by omega
        constructor
        · intro hcon
          simp [runEpoch, ho, hbrk] at hcon
        · intro _
          refine ⟨hlt, ?_, ?_, ?_, ?_, ?_⟩
          · simp [runEpoch, ho, hbrk]
          · simp [runEpoch, ho, hbrk, hone, hbi, List.range']
          · simp [runEpoch, ho, hbrk, hone, hvi, List.range', filter_single, hieq]
          · simp [runEpoch, ho, hbrk, hone, hsv, List.range', filter_single, hieq]
            by_cases h1 : cfg.is_master = true <;>
              by_cases h2 : valCond cfg cfg.iterations = true <;> simp [h1, h2]
          · intro hm
            simp [runEpoch, ho, hbrk]
            rw [← hieq]
            exact hsu hm hieq
      · -- the for loop continues with the rest of the epoch
        have IH := ih (stepBatch cfg (env s.iteration) s).st
        have hit1 : (stepBatch cfg (env s.iteration) s).st.iteration = s.iteration + 1 := hit
        constructor
        · intro hdone
          have hout : (runEpoch cfg env (stepBatch cfg (env s.iteration) s).st n).out =
              EpochOut.done := by
            revert hdone; simp [runEpoch, ho, hbrk]
          obtain ⟨h1, h2, h3, h4, h5⟩ := IH.1 hout
          refine ⟨?_, ?_, ?_, ?_, ?_⟩
          · simp only [runEpoch, ho, hbrk]
            simp [h1, hit1]
            omega
          · intro hslt
            have hlt1 : (stepBatch cfg (env s.iteration) s).st.iteration < cfg.iterations := by
              omega
            have := h2 hlt1
            omega
          · simp only [runEpoch, ho, hbrk]
            simp [batchIters_append, hbi, h3, hit1, List.range'_succ]
          · simp only [runEpoch, ho, hbrk]
            simp [valIters_append, hvi, h4, hit1, List.range'_succ, List.filter_cons]
            by_cases hv : valCond cfg (s.iteration + 1) = true <;> simp [hv]
          · simp only [runEpoch, ho, hbrk]
            simp [saveIters_append, hsv, h5, hit1, List.range'_succ, List.filter_cons]
            by_cases hm1 : cfg.is_master = true <;>
              by_cases hv : valCond cfg (s.iteration + 1) = true <;> simp [hm1, hv]
        · intro hbrk2
          have hout : (runEpoch cfg env (stepBatch cfg (env s.iteration) s).st n).out =
              EpochOut.brk := by
            revert hbrk2; simp [runEpoch, ho, hbrk]
          obtain ⟨h1, h2, h3, h4, h5, h6⟩ := IH.2 hout
          have hslt : s.iteration < cfg.iterations := by omega
          have hlen : cfg.iterations - s.iteration = (cfg.iterations - (s.iteration + 1)) + 1 :=
            by omega
          refine ⟨hslt, ?_, ?_, ?_, ?_, ?_⟩
          · simp only [runEpoch, ho, hbrk]
            simp [h2]
          · simp only [runEpoch, ho, hbrk]
            simp [batchIters_append, hbi, h3, hit1, hlen, List.range'_succ]
          · simp only [runEpoch, ho, hbrk]
            simp [valIters_append, hvi, h4, hit1, hlen, List.range'_succ, List.filter_cons]
            by_cases hv : valCond cfg (s.iteration + 1) = true <;> simp [hv]
          · simp only [runEpoch, ho, hbrk]
            simp [saveIters_append, hsv, h5, hit1, hlen, List.range'_succ, List.filter_cons]
            by_cases hm1 : cfg.is_master = true <;>
              by_cases hv : valCond cfg (s.iteration + 1) = true <;> simp [hm1, hv]
          · intro hm1
            simp only [runEpoch, ho, hbrk]
            simp [List.mem_append]
            exact Or.inr (h6 hm1)
    case exn =>
      constructor
      · intro hcon; simp [runEpoch, ho] at hcon
      · intro hcon; simp [runEpoch, ho] at hcon

lemma runWhile_inv (cfg : Config) (env : ℕ → BatchEnv) :
    ∀ (fuel : ℕ) (s : LoopState), ∀ ev ∈ (runWhile cfg env fuel s).evs,
      TraceInv cfg env ev := by
  intro fuel
  induction fuel with
  | zero =>
    intro s ev hev
    by_cases hg : s.iteration < cfg.iterations <;> simp [runWhile, hg] at hev
  | succ fuel ih =>
    intro s ev hev
    by_cases hg : s.iteration < cfg.iterations
    · cases hec : (runEpoch cfg env { s with clsLosses := [], boxLosses := [] }
        cfg.epochLen).out
      · simp [runWhile, hg, hec] at hev
        exact runEpoch_inv cfg env _ _ ev hev
      · simp [runWhile, hg, hec] at hev
        exact runEpoch_inv cfg env _ _ ev hev
      · simp [runWhile, hg, hec, List.mem_append] at hev
        rcases hev with hev | hev
        · exact runEpoch_inv cfg env _ _ ev hev
        · exact ih _ ev hev
    · simp [runWhile, hg] at hev

lemma runWhile_pairs (cfg : Config) (env : ℕ → BatchEnv) :
    ∀ (fuel : ℕ) (s : LoopState),
      schedSteps (runWhile cfg env fuel s).evs = valNumerics (runWhile cfg env fuel s).evs := by
  intro fuel
  induction fuel with
  | zero =>
    intro s
    by_cases hg : s.iteration < cfg.iterations <;>
      simp [runWhile, hg, schedSteps_nil, valNumerics_nil]
  | succ fuel ih =>
    intro s
    by_cases hg : s.iteration < cfg.iterations
    · cases hec : (runEpoch cfg env { s with clsLosses := [], boxLosses := [] }
        cfg.epochLen).out
      all_goals simp [runWhile, hg, hec, schedSteps_append, valNumerics_append,
        runEpoch_pairs, ih]
    · simp [runWhile, hg, schedSteps_nil, valNumerics_nil]

lemma runWhile_no_stuck (cfg : Config) (env : ℕ → BatchEnv) (hep : 1 ≤ cfg.epochLen) :
    ∀ (fuel : ℕ) (s : LoopState), cfg.iterations - s.iteration ≤ fuel →
      (runWhile cfg env fuel s).out ≠ RunOut.stuck := by
  intro fuel
  induction fuel with
  | zero =>
    intro s hf
    have hg : ¬ s.iteration < cfg.iterations := by omega
    simp [runWhile, hg]
  | succ fuel ih =>
    intro s hf
    by_cases hg : s.iteration < cfg.iterations
    · cases hec : (runEpoch cfg env { s with clsLosses := [], boxLosses := [] }
        cfg.epochLen).out
      · simp [runWhile, hg, hec]
      · simp [runWhile, hg, hec]
      · obtain ⟨h1, h2, _, _, _⟩ := (runEpoch_spec cfg env cfg.epochLen _).1 hec
        simp only at h1 h2
        have hlt : s.iteration + cfg.epochLen < cfg.iterations := h2 (by simpa using hg)
        have hrec := ih (runEpoch cfg env { s with clsLosses := [], boxLosses := [] }
          cfg.epochLen).st (by rw [h1]; simp; omega)
        simp [runWhile, hg, hec]
        exact hrec
    · simp [runWhile, hg]

lemma runWhile_normal_spec (cfg : Config) (env : ℕ → BatchEnv) :
    ∀ (fuel : ℕ) (s : LoopState), (runWhile cfg env fuel s).out = RunOut.normal →
      (runWhile cfg env fuel s).st.iteration = max s.iteration cfg.iterations ∧
      batchIters (runWhile cfg env fuel s).evs =
        List.range' s.iteration (cfg.iterations - s.iteration) ∧
      valIters (runWhile cfg env fuel s).evs =
        (List.range' (s.iteration + 1) (cfg.iterations - s.iteration)).filter
          (fun i => valCond cfg i) ∧
      saveIters (runWhile cfg env fuel s).evs =
        (if cfg.is_master then
          (List.range' (s.iteration + 1) (cfg.iterations - s.iteration)).filter
            (fun i => valCond cfg i) else []) ∧
      (cfg.is_master = true → s.iteration < cfg.iterations →
        Event.stateUpdate cfg.iterations ∈ (runWhile cfg env fuel s).evs) := by
  intro fuel
  induction fuel with
  | zero =>
    intro s h
    by_cases hg : s.iteration < cfg.iterations
    · simp [runWhile, hg] at h
    · have h0 : cfg.iterations - s.iteration = 0 := by omega
      refine ⟨?_, ?_, ?_, ?_, ?_⟩ <;>
        simp [runWhile, hg, h0, batchIters_nil, valIters_nil, saveIters_nil] <;>
        (intros; omega)
  | succ fuel ih =>
    intro s h
    by_cases hg : s.iteration < cfg.iterations
    · cases hec : (runEpoch cfg env { s with clsLosses := [], boxLosses := [] }
        cfg.epochLen).out
      · simp [runWhile, hg, hec] at h
      · obtain ⟨hl, h2, h3, h4, h5, h6⟩ := (runEpoch_spec cfg env cfg.epochLen _).2 hec
        simp only at hl h2 h3 h4 h5 h6
        refine ⟨?_, ?_, ?_, ?_, ?_⟩
        · simp [runWhile, hg, hec, h2]
          omega
        · simp [runWhile, hg, hec, h3]
        · simp [runWhile, hg, hec, h4]
        · simp [runWhile, hg, hec, h5]
        · intro hm _
          simp [runWhile, hg, hec]
          exact h6 hm
      · obtain ⟨h1, h2, h3, h4, h5⟩ := (runEpoch_spec cfg env cfg.epochLen _).1 hec
        simp only at h1 h2 h3 h4 h5
        have hnorm : (runWhile cfg env fuel
            (runEpoch cfg env { s with clsLosses := [], boxLosses := [] }
              cfg.epochLen).st).out = RunOut.normal := by
          revert h; simp [runWhile, hg, hec]
        obtain ⟨g1, g2, g3, g4, g5⟩ := ih _ hnorm
        rw [h1] at g1 g2 g3 g4 g5
        have hlt : s.iteration + cfg.epochLen < cfg.iterations := h2 hg
        have hidx : s.iteration + cfg.epochLen + 1 = (s.iteration + 1) + cfg.epochLen := by
          omega
        refine ⟨?_, ?_, ?_, ?_, ?_⟩
        · simp [runWhile, hg, hec, g1]
          omega
        · simp [runWhile, hg, hec, batchIters_append, h3, g2]
          omega
        · simp [runWhile, hg, hec, valIters_append, h4, g3]
          rw [hidx, ← List.filter_append, List.range'_append_1]
          congr 2
          omega
        · simp [runWhile, hg, hec, saveIters_append, h5, g4]
          by_cases hm : cfg.is_master = true <;> simp [hm]
          rw [hidx, ← List.filter_append, List.range'_append_1]
          congr 2
          omega
        · intro hm hslt
          simp [runWhile, hg, hec, List.mem_append]
          exact Or.inr (g5 hm hlt)
    · simp [runWhile, hg] at h
      have h0 : cfg.iterations - s.iteration = 0 := by omega
      refine ⟨?_, ?_, ?_, ?_, ?_⟩ <;>
        simp [runWhile, hg, h0, batchIters_nil, valIters_nil, saveIters_nil] <;>
        (intros; omega)

lemma initState_iteration (cfg : Config) (state0 : Option ℕ) :
    (initState cfg state0).iteration = state0.getD 0 := rfl

lemma train_inv (cfg : Config) (env : ℕ → BatchEnv) (state0 : Option ℕ) :
    ∀ ev ∈ (train cfg env state0).evs, TraceInv cfg env ev := by
  intro ev
  cases hl : cfg.logdir <;>
    cases hro : (runWhile cfg env (cfg.iterations + 1) (initState cfg state0)).out <;>
    intro hev <;>
    simp [train, hro, hl, List.mem_append] at hev <;>
    first
      | exact runWhile_inv cfg env _ _ ev hev
      | (rcases hev with hev | rfl
         exacts [runWhile_inv cfg env _ _ ev hev, by simp [TraceInv]])
      | (rcases hev with hev | rfl | rfl
         exacts [runWhile_inv cfg env _ _ ev hev, by simp [TraceInv], by simp [TraceInv]])

lemma train_pairs (cfg : Config) (env : ℕ → BatchEnv) (state0 : Option ℕ) :
    schedSteps (train cfg env state0).evs = valNumerics (train cfg env state0).evs := by
  cases hro : (runWhile cfg env (cfg.iterations + 1) (initState cfg state0)).out
  all_goals simp [train, hro, schedSteps_append, valNumerics_append, runWhile_pairs,
    schedSteps_cons, valNumerics_cons, schedSteps_nil, valNumerics_nil,
    schedSteps_ite, valNumerics_ite]

lemma train_no_stuck (cfg : Config) (env : ℕ → BatchEnv) (state0 : Option ℕ)
    (hep : 1 ≤ cfg.epochLen) : (train cfg env state0).out ≠ RunOut.stuck := by
  have h := runWhile_no_stuck cfg env hep (cfg.iterations + 1) (initState cfg state0)
    (by simp [initState]; omega)
  cases hro : (runWhile cfg env (cfg.iterations + 1) (initState cfg state0)).out
  all_goals simp [train, hro]
  rw [hro] at h
  simp at h

lemma train_out_normal (cfg : Config) (env : ℕ → BatchEnv) (state0 : Option ℕ)
    (h : (train cfg env state0).out = RunOut.normal) :
    (runWhile cfg env (cfg.iterations + 1) (initState cfg state0)).out = RunOut.normal := by
  cases hro : (runWhile cfg env (cfg.iterations + 1) (initState cfg state0)).out <;>
    simp [train, hro] at h ⊢

lemma train_normal_spec (cfg : Config) (env : ℕ → BatchEnv) (state0 : Option ℕ)
    (h : (train cfg env state0).out = RunOut.normal) :
    (train cfg env state0).st.iteration = max (state0.getD 0) cfg.iterations ∧
    batchIters (train cfg env state0).evs =
      List.range' (state0.getD 0) (cfg.iterations - state0.getD 0) ∧
    valIters (train cfg env state0).evs =
      (List.range' (state0.getD 0 + 1) (cfg.iterations - state0.getD 0)).filter
        (fun i => valCond cfg i) ∧
    saveIters (train cfg env state0).evs =
      (if cfg.is_master then
        (List.range' (state0.getD 0 + 1) (cfg.iterations - state0.getD 0)).filter
          (fun i => valCond cfg i) else []) ∧
    (cfg.is_master = true → state0.getD 0 < cfg.iterations →
      Event.stateUpdate cfg.iterations ∈ (train cfg env state0).evs) := by
  have hw := train_out_normal cfg env state0 h
  obtain ⟨g1, g2, g3, g4, g5⟩ := runWhile_normal_spec cfg env (cfg.iterations + 1)
    (initState cfg state0) hw
  simp only [initState_iteration] at g1 g2 g3 g4 g5
  refine ⟨?_, ?_, ?_, ?_, ?_⟩
  · simp [train, hw, g1]
  · simp [train, hw, batchIters_append, batchIters_cons, batchIters_nil,
      batchIters_ite, g2]
  · simp [train, hw, valIters_append, valIters_cons, valIters_nil, valIters_ite, g3]
  · simp [train, hw, saveIters_append, saveIters_cons, saveIters_nil, saveIters_ite, g4]
  · intro hm hlt
    simp [train, hw, List.mem_append]
    exact g5 hm hlt

lemma train_closes_writer (cfg : Config) (env : ℕ → BatchEnv) (state0 : Option ℕ)
    (hl : cfg.logdir = true) (hn : (train cfg env state0).out ≠ RunOut.stuck) :
    ∃ pre, (train cfg env state0).evs = pre ++ [Event.writerClose] := by
  cases hro : (runWhile cfg env (cfg.iterations + 1) (initState cfg state0)).out
  · exact ⟨(runWhile cfg env (cfg.iterations + 1) (initState cfg state0)).evs,
      by simp [train, hro, hl]⟩
  · exact ⟨(runWhile cfg env (cfg.iterations + 1) (initState cfg state0)).evs ++
      [Event.exnPrint], by simp [train, hro, hl]⟩
  · rw [show (train cfg env state0).out =
      (runWhile cfg env (cfg.iterations + 1) (initState cfg state0)).out from by
        simp [train, hro], hro] at hn
    simp at hn

lemma train_caught_print (cfg : Config) (env : ℕ → BatchEnv) (state0 : Option ℕ)
    (hc : (train cfg env state0).out = RunOut.caught) :
    Event.exnPrint ∈ (train cfg env state0).evs := by
  cases hro : (runWhile cfg env (cfg.iterations + 1) (initState cfg state0)).out <;>
    simp [train, hro, List.mem_append] at hc ⊢

/-- C1: train.py line 35 passes the same amp opt_level 'O0' whether
mixed_precision is true or false, while line 67 announces 'mixed' precision;
the mixed-precision opt level does not differ from the full-precision one. -/
theorem C1_amp_opt_level_ignores_mixed_precision :
    ampOptLevel true = "O0" ∧ ampOptLevel false = "O0" ∧
    ampOptLevel true = ampOptLevel false ∧ precisionLabel true = "mixed" :=
  ⟨rfl, rfl, rfl, rfl⟩

/-- C2: the scheduler is stepped exactly with the numeric validation metrics
(string results are skipped), and the modelled ReduceLROnPlateau
(mode min, factor 0.5, patience 2) halves the learning rate on the third
consecutive non-improving validation. -/
theorem C2_lr_halved_on_validation_plateau :
    (∀ (cfg : Config) (env : ℕ → BatchEnv) (state0 : Option ℕ),
      schedSteps (train cfg env state0).evs = valNumerics (train cfg env state0).evs) ∧
    (∀ (s : SchedState) (m : ℚ), isBetter m s.best = false → 2 ≤ s.numBad →
      schedEps < s.lr / 2 →
      (reduceLROnPlateauStep s m).lr = s.lr / 2 ∧
      (reduceLROnPlateauStep s m).numBad = 0) := by
  constructor
  · exact train_pairs
  · intro s m hb hn he
    have hpos : (0 : ℚ) < s.lr / 2 := lt_trans (by norm_num [schedEps]) he
    have hmax : max (s.lr * schedFactor) 0 = s.lr / 2 := by
      rw [show s.lr * schedFactor = s.lr / 2 by unfold schedFactor; ring]
      exact max_eq_left (le_of_lt hpos)
    have hcond : schedEps < s.lr - s.lr / 2 := by
      rw [show s.lr - s.lr / 2 = s.lr / 2 by ring]
      exact he
    unfold reduceLROnPlateauStep
    simp only [hb, Bool.false_eq_true, if_false, schedPatience]
    rw [if_pos (by omega : 2 < s.numBad + 1), hmax, if_pos hcond]
    exact ⟨rfl, rfl⟩

theorem C2_witness :
    schedSteps (train cfgA envA none).evs = valNumerics (train cfgA envA none).evs ∧
    (reduceLROnPlateauStep ⟨1, some 1, 2⟩ 5).lr = 1 / 2 := by
  refine ⟨C2_lr_halved_on_validation_plateau.1 cfgA envA none, ?_⟩
  have h := (C2_lr_halved_on_validation_plateau.2 ⟨1, some 1, 2⟩ 5
    (by norm_num [isBetter, schedThreshold])
    (by norm_num)
    (by norm_num [schedEps])).1
  simpa using h

/-- C3 counterexample: a master run with val_annotations set, val_iterations 1
and 2 requested iterations whose incoming state dict has no 'iteration' entry
(`state0 = none`): the claim predicts validations at iterations 1 and 2 with a
checkpoint save at each, but the save at iteration 1 raises KeyError on
`state['iteration']` (train.py line 169), training aborts, and the run
performs only the validation at iteration 1 and no save at all. -/
theorem C3_counterexample :
    cexCfg.val_annotations = true ∧ cexCfg.is_master = true ∧
    (train cexCfg cexEnv none).out = RunOut.caught ∧
    valIters (train cexCfg cexEnv none).evs = [1] ∧
    saveIters (train cexCfg cexEnv none).evs = [] := by
  refine ⟨rfl, rfl, ?_, ?_, ?_⟩ <;>
    norm_num [train, initState, runWhile, runEpoch, stepBatch, reportBlock,
      validationBlock, masterSave, valCond, valZeroDiv, allReduceMean,
      reduceLROnPlateauStep, isBetter, cexCfg, cexEnv, schedPatience, schedFactor,
      schedThreshold, schedEps, valIters_cons, valIters_nil, saveIters_cons,
      saveIters_nil]

/-- C3 (amended): in a run with val_annotations provided that terminates
normally (no exception aborts the loop; in particular the KeyError of the
counterexample does not occur), validation runs exactly at the processed
iterations that are multiples of val_iterations or equal the final iteration
count, and the checkpoint is saved at exactly those iterations when the
worker is the master, and never otherwise. -/
theorem C3_validation_points (cfg : Config) (env : ℕ → BatchEnv) (state0 : Option ℕ)
    (hva : cfg.val_annotations = true)
    (hn : (train cfg env state0).out = RunOut.normal) :
    valIters (train cfg env state0).evs =
      (List.range' (state0.getD 0 + 1) (cfg.iterations - state0.getD 0)).filter
        (fun i => decide (i % cfg.val_iterations = 0) || decide (i = cfg.iterations)) ∧
    (cfg.is_master = true →
      saveIters (train cfg env state0).evs = valIters (train cfg env state0).evs) ∧
    (cfg.is_master = false → saveIters (train cfg env state0).evs = []) := by
  obtain ⟨_, _, g3, g4, _⟩ := train_normal_spec cfg env state0 hn
  have hpred : ∀ i, valCond cfg i =
      (decide (i % cfg.val_iterations = 0) || decide (i = cfg.iterations)) := by
    intro i
    unfold valCond
    rw [hva, Bool.true_and]
    exact Bool.or_comm ..
  refine ⟨?_, ?_, ?_⟩
  · rw [g3]
    exact List.filter_congr fun i _ => hpred i
  · intro hm
    rw [g3, g4, hm, if_pos rfl]
  · intro hm
    rw [g4, hm]
    simp

theorem C3_witness :
    cexCfg.val_annotations = true ∧
    (train cexCfg cexEnv (some 0)).out = RunOut.normal ∧
    valIters (train cexCfg cexEnv (some 0)).evs = [1, 2] ∧
    saveIters (train cexCfg cexEnv (some 0)).evs = [1, 2] := by
  have hn : (train cexCfg cexEnv (some 0)).out = RunOut.normal := by
    norm_num [train, initState, runWhile, runEpoch, stepBatch, reportBlock,
      validationBlock, masterSave, valCond, valZeroDiv, allReduceMean,
      reduceLROnPlateauStep, isBetter, cexCfg, cexEnv, schedPatience, schedFactor,
      schedThreshold, schedEps]
  obtain ⟨h1, h2, _⟩ := C3_validation_points cexCfg cexEnv (some 0) rfl hn
  refine ⟨rfl, hn, ?_, ?_⟩
  · rw [h1]
    norm_num [cexCfg, List.range']
  · rw [h2 rfl, h1]
    norm_num [cexCfg, List.range']

/-- C4: a loss pair is recorded only on the master, and in a distributed run
(world > 1) the recorded classification and box losses are the all-reduced
sums over all workers divided by world, i.e. the mean over the workers of the
per-worker batch-mean losses. -/
theorem C4_losses_reduced_across_workers (cfg : Config) (env : ℕ → BatchEnv)
    (state0 : Option ℕ) (i : ℕ) (c b : ℚ)
    (hrec : Event.record i c b ∈ (train cfg env state0).evs) :
    cfg.is_master = true ∧
    (1 < cfg.world →
      c = (∑ w ∈ Finset.range cfg.world, (env i).cls w) / (cfg.world : ℚ) ∧
      b = (∑ w ∈ Finset.range cfg.world, (env i).box w) / (cfg.world : ℚ)) := by
  have h := train_inv cfg env state0 _ hrec
  simp only [TraceInv] at h
  obtain ⟨hm, hc, hb⟩ := h
  refine ⟨hm, fun hw => ?_⟩
  rw [hc, hb]
  unfold allReduceMean
  rw [if_pos hw, if_pos hw]
  exact ⟨rfl, rfl⟩

theorem C4_witness :
    Event.record 0 (3 / 2) (3 / 2) ∈ (train cfgW envW none).evs ∧
    1 < cfgW.world ∧
    (3 / 2 : ℚ) = (∑ w ∈ Finset.range cfgW.world, (envW 0).cls w) / (cfgW.world : ℚ) := by
  have hmem : Event.record 0 (3 / 2) (3 / 2) ∈ (train cfgW envW none).evs := by
    norm_num [train, initState, runWhile, runEpoch, stepBatch, reportBlock,
      validationBlock, masterSave, valCond, valZeroDiv, allReduceMean,
      cfgW, envW, Finset.sum_range_succ]
  exact ⟨hmem, by norm_num [cfgW],
    (C4_losses_reduced_across_workers cfgW envW none 0 (3 / 2) (3 / 2) hmem).2
      (by norm_num [cfgW]) |>.1⟩

/-- C5: each report sink fires only on the master and only when the
accumulated profiler time exceeds 2 or the final iteration is reached; the
TensorBoard write additionally requires logdir, the metrics post requires
metrics_url, and the console line requires verbose. -/
theorem C5_report_sink_gating (cfg : Config) (env : ℕ → BatchEnv) (state0 : Option ℕ)
    (ev : Event) (hev : ev ∈ (train cfg env state0).evs) :
    (∀ i p, ev = Event.console i p →
      cfg.is_master = true ∧ cfg.verbose = true ∧ (2 < p ∨ i = cfg.iterations)) ∧
    (∀ i p, ev = Event.tbWrite i p →
      cfg.is_master = true ∧ cfg.logdir = true ∧ (2 < p ∨ i = cfg.iterations)) ∧
    (∀ i p, ev = Event.metricsPost i p →
      cfg.is_master = true ∧ cfg.metrics_url = true ∧ (2 < p ∨ i = cfg.iterations)) := by
  have h := train_inv cfg env state0 _ hev
  refine ⟨fun i p hc => ?_, fun i p hc => ?_, fun i p hc => ?_⟩ <;>
    (subst hc; simpa [TraceInv] using h)

theorem C5_witness :
    Event.console 1 3 ∈ (train cfgS envS none).evs ∧
    cfgS.is_master = true ∧ cfgS.verbose = true ∧ (2 < (3 : ℚ) ∨ 1 = cfgS.iterations) := by
  have hmem : Event.console 1 3 ∈ (train cfgS envS none).evs := by
    norm_num [train, initState, runWhile, runEpoch, stepBatch, reportBlock,
      validationBlock, masterSave, valCond, valZeroDiv, allReduceMean, cfgS, envS]
  have h := (C5_report_sink_gating cfgS envS none (Event.console 1 3) hmem).1 1 3 rfl
  exact ⟨hmem, h⟩

/-- C6: the loop never hangs when the data iterator yields at least one batch
per epoch, and a normally terminating run processes exactly the batches at
iteration values `state.get('iteration', 0), ..., iterations - 1` — one
increment per batch, `iterations - initial` batches in all — ending with the
iteration counter at `iterations` (or unchanged when it already started
there). -/
theorem C6_loop_counts (cfg : Config) (env : ℕ → BatchEnv) (state0 : Option ℕ) :
    (1 ≤ cfg.epochLen → (train cfg env state0).out ≠ RunOut.stuck) ∧
    ((train cfg env state0).out = RunOut.normal →
      batchIters (train cfg env state0).evs =
        List.range' (state0.getD 0) (cfg.iterations - state0.getD 0) ∧
      (batchIters (train cfg env state0).evs).length =
        cfg.iterations - state0.getD 0 ∧
      (train cfg env state0).st.iteration = max (state0.getD 0) cfg.iterations) := by
  constructor
  · exact train_no_stuck cfg env state0
  · intro hn
    obtain ⟨g1, g2, _, _, _⟩ := train_normal_spec cfg env state0 hn
    exact ⟨g2, by rw [g2]; simp, g1⟩

theorem C6_witness :
    1 ≤ cfgA.epochLen ∧ (train cfgA envA none).out = RunOut.normal ∧
    (train cfgA envA none).out ≠ RunOut.stuck ∧
    batchIters (train cfgA envA none).evs = [0] ∧
    (train cfgA envA none).st.iteration = 1 := by
  have hn : (train cfgA envA none).out = RunOut.normal := by
    norm_num [train, initState, runWhile, runEpoch, stepBatch, reportBlock,
      validationBlock, masterSave, valCond, valZeroDiv, allReduceMean, cfgA, envA]
  obtain ⟨h2, _, h3⟩ := (C6_loop_counts cfgA envA none).2 hn
  refine ⟨by norm_num [cfgA], hn, (C6_loop_counts cfgA envA none).1 (by norm_num [cfgA]), ?_, ?_⟩
  · rw [h2]
    norm_num [cfgA, List.range']
  · rw [h3]
    norm_num [cfgA]

/-- C7: every batch that the loop body processes (its environment does not
raise on entry) starts with, in order: zeroing the gradients, the forward
pass yielding the classification and box losses, the backward pass on the
amp-scaled (loss_scale = 128.0) sum of the two losses, and the optimizer
step. -/
theorem C7_step_operation_order (cfg : Config) (e : BatchEnv) (s : LoopState)
    (hr : e.raises = false) :
    ((stepBatch cfg e s).evs).take 4 =
      batchOps s.iteration (e.cls cfg.rank) (e.box cfg.rank) := by
  cases hmf : cfg.is_master && !e.finite
  all_goals cases hzd : valZeroDiv cfg (s.iteration + 1)
  all_goals cases hvc : valCond cfg (s.iteration + 1)
  all_goals
    simp [stepBatch, hr, hmf, hzd, hvc, batchOps]

theorem C7_witness :
    (envA 0).raises = false ∧
    ((stepBatch cfgA (envA 0) (initState cfgA none)).evs).take 4 =
      batchOps 0 0 0 := by
  have h := C7_step_operation_order cfgA (envA 0) (initState cfgA none) rfl
  exact ⟨rfl, by simpa [initState, cfgA, envA] using h⟩

/-- C8: on the master a batch whose combined loss is non-finite makes the
body raise (the RuntimeError of train.py line 111); any exception escaping
the loop reaches the handler of line 175, which prints it; and with a data
iterator yielding at least one batch per epoch, train always returns instead
of propagating the exception. -/
theorem C8_exceptions_caught_and_printed :
    (∀ (cfg : Config) (e : BatchEnv) (s : LoopState), cfg.is_master = true →
      e.raises = false → e.finite = false → (stepBatch cfg e s).out = StepOut.exn) ∧
    (∀ (cfg : Config) (env : ℕ → BatchEnv) (state0 : Option ℕ),
      (train cfg env state0).out = RunOut.caught →
      Event.exnPrint ∈ (train cfg env state0).evs) ∧
    (∀ (cfg : Config) (env : ℕ → BatchEnv) (state0 : Option ℕ),
      1 ≤ cfg.epochLen → (train cfg env state0).out ≠ RunOut.stuck) := by
  refine ⟨?_, train_caught_print, fun cfg env state0 => train_no_stuck cfg env state0⟩
  intro cfg e s hm hr hf
  simp [stepBatch, hr, hm, hf]

theorem C8_witness :
    (stepBatch cfgA (envF 0) (initState cfgA none)).out = StepOut.exn ∧
    (train cfgA envF none).out = RunOut.caught ∧
    Event.exnPrint ∈ (train cfgA envF none).evs ∧
    (train cfgA envF none).out ≠ RunOut.stuck := by
  have hc : (train cfgA envF none).out = RunOut.caught := by
    norm_num [train, initState, runWhile, runEpoch, stepBatch, reportBlock,
      validationBlock, masterSave, valCond, valZeroDiv, allReduceMean, cfgA, envF]
  exact ⟨C8_exceptions_caught_and_printed.1 cfgA (envF 0) (initState cfgA none) rfl rfl rfl,
    hc, C8_exceptions_caught_and_printed.2.1 cfgA envF none hc,
    C8_exceptions_caught_and_printed.2.2 cfgA envF none (by norm_num [cfgA])⟩

/-- C9: when val_annotations is falsy no checkpoint save ever happens, while
the state dict still receives its iteration/optimizer/scheduler update at
reporting points — in particular at the final-iteration report on the
master. -/
theorem C9_no_save_without_val_annotations (cfg : Config) (env : ℕ → BatchEnv)
    (state0 : Option ℕ) (hva : cfg.val_annotations = false) :
    (∀ i, Event.save i ∉ (train cfg env state0).evs) ∧
    (cfg.is_master = true → (train cfg env state0).out = RunOut.normal →
      state0.getD 0 < cfg.iterations →
      Event.stateUpdate cfg.iterations ∈ (train cfg env state0).evs) := by
  constructor
  · intro i hsave
    have h := train_inv cfg env state0 _ hsave
    simp only [TraceInv] at h
    rw [hva] at h
    exact absurd h.2 (by simp)
  · intro hm hn hlt
    obtain ⟨_, _, _, _, g5⟩ := train_normal_spec cfg env state0 hn
    exact g5 hm hlt

theorem C9_witness :
    cfgA.val_annotations = false ∧
    Event.save 1 ∉ (train cfgA envA none).evs ∧
    Event.stateUpdate 1 ∈ (train cfgA envA none).evs := by
  have h := C9_no_save_without_val_annotations cfgA envA none rfl
  have hn : (train cfgA envA none).out = RunOut.normal := by
    norm_num [train, initState, runWhile, runEpoch, stepBatch, reportBlock,
      validationBlock, masterSave, valCond, valZeroDiv, allReduceMean, cfgA, envA]
  refine ⟨rfl, h.1 1, ?_⟩
  have hsu := h.2 rfl hn (by norm_num [cfgA])
  simpa [cfgA] using hsu

/-- C10: whenever logdir is not None and the run returns (normally or through
the exception handler), the last thing train does is close the TensorBoard
writer. -/
theorem C10_writer_closed_before_return (cfg : Config) (env : ℕ → BatchEnv)
    (state0 : Option ℕ) (hl : cfg.logdir = true)
    (hn : (train cfg env state0).out ≠ RunOut.stuck) :
    (train cfg env state0).evs.getLast? = some Event.writerClose ∧
    ∃ pre, (train cfg env state0).evs = pre ++ [Event.writerClose] := by
  obtain ⟨pre, hp⟩ := train_closes_writer cfg env state0 hl hn
  refine ⟨?_, pre, hp⟩
  rw [hp]
  simp

theorem C10_witness :
    cfgS.logdir = true ∧ (train cfgS envR none).out = RunOut.caught ∧
    (train cfgS envR none).evs.getLast? = some Event.writerClose := by
  have hc : (train cfgS envR none).out = RunOut.caught := by
    norm_num [train, initState, runWhile, runEpoch, stepBatch, reportBlock,
      validationBlock, masterSave, valCond, valZeroDiv, allReduceMean, cfgS, envR]
  have h := C10_writer_closed_before_return cfgS envR none rfl (by rw [hc]; simp)
  exact ⟨rfl, hc, h.1⟩

end RetinaNet
